import Mathlib

/-!
Shallow embedding of `src/ir_rStep.cpp` (the rStep infrared protocol
decoder of the Arduino-IRremote fork).

Modelling conventions:
* A raw capture is the list of pulse durations `rawbuf[1] .. rawbuf[rawlen-1]`
  measured in 50 µs ticks; `rawbuf[0]` (the leading gap) is never read by the
  decoder, so it is not part of the model.  The list element at position 0
  corresponds to slot index 1 of the C array, hence the classification loop
  below carries the C slot index explicitly.
* The `uint64_t` accumulators `real_biphase_bits` / `real_data_bits` hold the
  chips resp. data bits LSB-first, i.e. accumulator bit `i` is the `i`-th chip
  (bit) in chronological order.  We model each accumulator together with its
  running counter as a chronological `List Bool` (`true` = mark level).
* The caller supplied `decode_results` object is modelled by the record of the
  four fields the decoder writes (`decode_type`, `bits`, `value`, `address`);
  functions take it as an argument and return the updated record, so the
  source's "written through the pointer only on success" becomes visible as a
  statement about the returned record.
* Fallible paths (`return false`) become `Option` / a `Bool × DecodeResults`
  pair whose boolean mirrors the C return value.
-/

/-- The protocol tag written into `results->decode_type`.  `UNKNOWN` stands for
any value the field held before a successful rStep decode. -/
inductive IRDecodeType : Type
  | UNKNOWN : IRDecodeType
  | RSTEP : IRDecodeType
deriving DecidableEq, Repr

/-- The output fields of the C `decode_results` structure that
`decodeRstepInternal` touches. -/
structure DecodeResults : Type where
  decode_type : IRDecodeType
  bits : Nat
  value : Nat
  address : Nat
deriving DecidableEq, Repr

/-- A `decode_results` object with arbitrary prior content. -/
def emptyResults : DecodeResults :=
  { decode_type := IRDecodeType.UNKNOWN, bits := 0, value := 0, address := 0 }

/-- One set of the four tick-count bounds passed to `decodeRstepInternal`. -/
structure TimingParams : Type where
  short_min : Nat
  short_max : Nat
  long_min : Nat
  long_max : Nat
deriving DecidableEq, Repr

/-- `RSTEP_SHORT_PULSE_38k_MIN_TICKS` etc.: the 38 kHz (fast clock) table. -/
def params38k : TimingParams :=
  { short_min := 4, short_max := 10, long_min := 11, long_max := 16 }

/-- `RSTEP_SHORT_PULSE_56k_MIN_TICKS` etc.: the 56 kHz (slow clock) table. -/
def params56k : TimingParams :=
  { short_min := 2, short_max := 6, long_min := 7, long_max := 11 }

/-- Part I of `decodeRstepInternal`: the loop
`for (int i = 1; i < results->rawlen; i++)` that classifies each raw duration
and appends one chip (short) or two chips (long) of the slot's level to
`real_biphase_bits`.  The argument `i` is the C loop index (slot number); a
slot with `i % 2 == 1` is a MARK (level `true`), otherwise a SPACE (level
`false`).  An unclassifiable duration makes the whole attempt fail
(`return false`), modelled by `none`. -/
def classifyLoop (p : TimingParams) : Nat → List Nat → Option (List Bool)
  | _, [] => some []
  | i, d :: rest =>
    if p.short_min ≤ d ∧ d ≤ p.short_max then
      (classifyLoop p (i + 1) rest).map (fun cs => (i % 2 == 1) :: cs)
    else if p.long_min ≤ d ∧ d ≤ p.long_max then
      (classifyLoop p (i + 1) rest).map (fun cs => (i % 2 == 1) :: (i % 2 == 1) :: cs)
    else
      none

/-- Part II of `decodeRstepInternal`: if the chip count is odd, the trailing
space was not observed; `num_real_biphase_bits++` counts one extra chip whose
accumulator bit is still `0`, i.e. a synthetic low chip is appended. -/
def padChips (cs : List Bool) : List Bool :=
  if cs.length % 2 = 1 then cs ++ [false] else cs

/-- Part III of `decodeRstepInternal`: the loop
`for (int i = 0; i < num_real_biphase_bits; i += 2)` that reads each aligned
chip pair `(lower_bit, higher_bit)`, fails on an equal pair, and otherwise
emits data bit `1` for MARK→SPACE (`lower_bit` set) and `0` for SPACE→MARK.
The singleton case mirrors the accumulator semantics: a read past the counter
sees bit value `0`. -/
def biphaseDecode : List Bool → Option (List Bool)
  | [] => some []
  | [c] => if c = false then none else some [true]
  | c1 :: c2 :: rest =>
    if c1 = c2 then none
    else (biphaseDecode rest).map (fun bs => c1 :: bs)

/-- The bit-packing idiom `acc <<= 1; acc |= bit` iterated over a bit list in
chronological order (used for both `results->value` and `results->address`). -/
def shiftPack (l : List Bool) : Nat :=
  l.foldl (fun a b => 2 * a + (if b then 1 else 0)) 0

/-- The tail of `decodeRstepInternal` after Part III: reject fewer than 10
data bits, otherwise write `decode_type`, `bits = n - 10`,
`value` (bits 10 … n−1, shifted in chronological order) and
`address` (bits 1 … 9, shifted in chronological order) into the result
object and return `true`. -/
def fieldExtract (results : DecodeResults) (dataBits : List Bool) :
    Bool × DecodeResults :=
  if dataBits.length < 10 then
    (false, results)
  else
    (true,
      { decode_type := IRDecodeType.RSTEP,
        bits := dataBits.length - 10,
        value := shiftPack (dataBits.drop 10),
        address := shiftPack ((dataBits.drop 1).take 9) })

/-- `decodeRstepInternal`: one decode attempt with one timing table.  The
boolean is the C return value; the record is the content of `*results` after
the call. -/
def decodeRstepInternal (results : DecodeResults) (raw : List Nat)
    (p : TimingParams) : Bool × DecodeResults :=
  match classifyLoop p 1 raw with
  | none => (false, results)
  | some chips =>
    match biphaseDecode (padChips chips) with
    | none => (false, results)
    | some dataBits => fieldExtract results dataBits

/-- `IRrecv::decodeRstep`: try the 38 kHz table first and, only if that
attempt returned `false`, the 56 kHz table on the same capture (C short
circuit `||`); the slow attempt reads `*results` as the fast attempt left
it. -/
def decodeRstep (results : DecodeResults) (raw : List Nat) :
    Bool × DecodeResults :=
  match decodeRstepInternal results raw params38k with
  | (true, r) => (true, r)
  | (false, r) => decodeRstepInternal r raw params56k

/-- The raw tick sequence (fast clock, short = 6 ticks, long = 13 ticks) of
the example frame documented in the source header: start=1, customer=1101,
address=01, frametype=10, battery=1, payload=00011110. -/
def exampleRaw38k : List Nat :=
  [6, 6, 6, 6, 6, 13, 13, 13, 13, 6, 6, 13, 13, 13, 6, 6, 6, 6, 13, 6, 6, 6,
   6, 6, 6, 13, 6]

/-- Spec-side formulation of most-significant-first packing: the earliest bit
of the list gets the highest place value.  Compared against `shiftPack` (the
source's shift-and-or loop) below. -/
def specPackMSB : List Bool → Nat
  | [] => 0
  | b :: rest => (if b then 1 else 0) * 2 ^ rest.length + specPackMSB rest

/-- Spec-side classification verdict for one raw duration: it must lie in the
inclusive short window or in the inclusive long window, otherwise the slot is
invalid. -/
def slotValid (p : TimingParams) (d : Nat) : Prop :=
  (p.short_min ≤ d ∧ d ≤ p.short_max) ∨ (p.long_min ≤ d ∧ d ≤ p.long_max)

instance (p : TimingParams) (d : Nat) : Decidable (slotValid p d) := by
  unfold slotValid
  infer_instance

/-- Spec-side chips contributed by one slot (meaningful only when the slot is
valid): one chip of the slot's level for a short duration, two identical such
chips for a long one.  Mark slots (odd C index) carry the high level, space
slots the low level. -/
def slotChips (p : TimingParams) (i : Nat) (d : Nat) : List Bool :=
  if p.short_min ≤ d ∧ d ≤ p.short_max then
    List.replicate 1 (i % 2 == 1)
  else
    List.replicate 2 (i % 2 == 1)

/-- Spec-side formulation of the whole classification stage: classify the
slots in order starting at C index 1; if any slot is invalid the entire
attempt fails with no partial result, otherwise the per-slot chips are
concatenated in slot order. -/
def specChipStream (p : TimingParams) (raw : List Nat) : Option (List Bool) :=
  if ∀ x ∈ raw.enumFrom 1, slotValid p x.2 then
    some (((raw.enumFrom 1).map (fun x => slotChips p x.1 x.2)).flatten)
  else
    none

theorem classifyLoop_eq_spec_aux (p : TimingParams) :
    ∀ (raw : List Nat) (i : Nat),
      classifyLoop p i raw =
        if ∀ x ∈ raw.enumFrom i, slotValid p x.2 then
          some (((raw.enumFrom i).map (fun x => slotChips p x.1 x.2)).flatten)
        else
          none := by
  intro raw
  induction raw with
  | nil => intro i; simp [classifyLoop]
  | cons d rest ih =>
    intro i
    have hcons : ((d :: rest).enumFrom i) = (i, d) :: rest.enumFrom (i + 1) := by
      simp [List.enumFrom]
    by_cases hall : ∀ x ∈ rest.enumFrom (i + 1), slotValid p x.2
    · by_cases h1 : p.short_min ≤ d ∧ d ≤ p.short_max
      · have hcond : ∀ x ∈ (i, d) :: rest.enumFrom (i + 1), slotValid p x.2 :=
          List.forall_mem_cons.mpr ⟨Or.inl h1, hall⟩
        simp [classifyLoop, h1, ih (i + 1), hcons, slotChips]
        rw [if_pos hall, if_pos hcond]
      · by_cases h2 : p.long_min ≤ d ∧ d ≤ p.long_max
        · have hcond : ∀ x ∈ (i, d) :: rest.enumFrom (i + 1), slotValid p x.2 :=
            List.forall_mem_cons.mpr ⟨Or.inr h2, hall⟩
          simp [classifyLoop, h1, h2, ih (i + 1), hcons, slotChips]
          rw [if_pos hall, if_pos hcond]
        · have hv : ¬ slotValid p d := by
            intro hx
            cases hx with
            | inl hx => exact h1 hx
            | inr hx => exact h2 hx
          have hcond : ¬ ∀ x ∈ (i, d) :: rest.enumFrom (i + 1),
              slotValid p x.2 :=
            fun hx => hv (List.forall_mem_cons.mp hx).1
          simp [classifyLoop, h1, h2, hcons]
          rw [if_neg hcond]
    · have hcond : ¬ ∀ x ∈ (i, d) :: rest.enumFrom (i + 1), slotValid p x.2 :=
        fun hx => hall (List.forall_mem_cons.mp hx).2
      by_cases h1 : p.short_min ≤ d ∧ d ≤ p.short_max
      · simp [classifyLoop, h1, ih (i + 1), hcons]
        rw [if_neg hall, if_neg hcond]
      · by_cases h2 : p.long_min ≤ d ∧ d ≤ p.long_max
        · simp [classifyLoop, h1, h2, ih (i + 1), hcons]
          rw [if_neg hall, if_neg hcond]
        · simp [classifyLoop, h1, h2, hcons]
          rw [if_neg hcond]

theorem classifyLoop_eq_spec (p : TimingParams) (raw : List Nat) :
    classifyLoop p 1 raw = specChipStream p raw :=
  classifyLoop_eq_spec_aux p raw 1

/-- Every raw slot contributes at most two chips. -/
theorem classifyLoop_length_le (p : TimingParams) :
    ∀ (raw : List Nat) (i : Nat) (cs : List Bool),
      classifyLoop p i raw = some cs → cs.length ≤ 2 * raw.length := by
  intro raw
  induction raw with
  | nil => intro i cs h; simp [classifyLoop] at h; simp [← h]
  | cons d rest ih =>
    intro i cs h
    by_cases h1 : p.short_min ≤ d ∧ d ≤ p.short_max
    · simp [classifyLoop, h1] at h
      rcases h with ⟨y, hy, hcs⟩
      have := ih (i + 1) y hy
      simp [← hcs, List.length_cons]
      omega
    · by_cases h2 : p.long_min ≤ d ∧ d ≤ p.long_max
      · simp [classifyLoop, h1, h2] at h
        rcases h with ⟨y, hy, hcs⟩
        have := ih (i + 1) y hy
        simp [← hcs, List.length_cons]
        omega
      · simp [classifyLoop, h1, h2] at h

/-- On any failing attempt the result object is returned unchanged. -/
theorem decodeRstepInternal_fail_frozen (results : DecodeResults)
    (raw : List Nat) (p : TimingParams) :
    (decodeRstepInternal results raw p).1 = false →
      (decodeRstepInternal results raw p).2 = results := by
  intro hfail
  unfold decodeRstepInternal at hfail ⊢
  cases h1 : classifyLoop p 1 raw with
  | none => simp [h1]
  | some chips =>
    simp only [h1] at hfail ⊢
    cases h2 : biphaseDecode (padChips chips) with
    | none => simp [h2]
    | some dataBits =>
      simp only [h2] at hfail ⊢
      by_cases h3 : dataBits.length < 10
      · simp [fieldExtract, h3]
      · simp [fieldExtract, h3] at hfail

/-- The data bit emitted for pair `i` is the level of the pair's first chip. -/
theorem biphase_get_fwd :
    ∀ (cs db : List Bool), biphaseDecode cs = some db →
      ∀ (i : Nat) (c : Bool), cs[2 * i]? = some c → db[i]? = some c := by
  intro cs
  induction cs using biphaseDecode.induct with
  | case1 =>
    intro db _ i c hget
    simp at hget
  | case2 =>
    intro db h
    simp [biphaseDecode] at h
  | case3 c hc =>
    intro db h i cbit hget
    have hc2 : c = true := by cases c with
      | false => exact absurd rfl hc
      | true => rfl
    subst hc2
    simp [biphaseDecode] at h
    match i with
    | 0 =>
      simp at hget
      simp [← h, ← hget]
    | i + 1 =>
      rw [show 2 * (i + 1) = 2 * i + 1 + 1 by omega] at hget
      simp at hget
  | case4 c2 rest =>
    intro db h
    simp [biphaseDecode] at h
  | case5 c1 c2 rest hne ih =>
    intro db h i c hget
    simp [biphaseDecode, hne] at h
    rcases h with ⟨bs, hbs, hdb⟩
    match i with
    | 0 =>
      simp at hget
      simp [← hdb, ← hget]
    | i + 1 =>
      rw [show 2 * (i + 1) = 2 * i + 1 + 1 by omega] at hget
      simp only [List.getElem?_cons_succ] at hget
      have := ih bs hbs i c hget
      simp [← hdb, List.getElem?_cons_succ, this]

/-- An aligned pair of equal chips anywhere in the stream makes the biphase
walk fail. -/
theorem biphase_eqpair_none :
    ∀ (cs : List Bool) (i : Nat) (c : Bool),
      cs[2 * i]? = some c → cs[2 * i + 1]? = some c →
        biphaseDecode cs = none := by
  intro cs
  induction cs using biphaseDecode.induct with
  | case1 =>
    intro i c h1 _
    simp at h1
  | case2 =>
    intro i c h1 h2
    match i with
    | 0 => simp at h2
    | i + 1 =>
      rw [show 2 * (i + 1) = 2 * i + 1 + 1 by omega] at h1
      simp at h1
  | case3 c0 hc0 =>
    intro i c h1 h2
    match i with
    | 0 => simp at h2
    | i + 1 =>
      rw [show 2 * (i + 1) = 2 * i + 1 + 1 by omega] at h1
      simp at h1
  | case4 c2 rest =>
    intro _ _ _ _
    simp [biphaseDecode]
  | case5 c1 c2 rest hne ih =>
    intro i c h1 h2
    match i with
    | 0 =>
      simp at h1 h2
      exact absurd (h1.trans h2.symm) hne
    | i + 1 =>
      rw [show 2 * (i + 1) = 2 * i + 1 + 1 by omega] at h1 h2
      simp only [List.getElem?_cons_succ] at h1 h2
      simp [biphaseDecode, hne, ih i c h1 h2]

/-- A successful biphase walk recovers one data bit per chip pair (the odd
singleton case, unreachable after padding, also consumes one virtual pair). -/
theorem biphase_length :
    ∀ (cs db : List Bool), biphaseDecode cs = some db →
      2 * db.length = cs.length + cs.length % 2 := by
  intro cs
  induction cs using biphaseDecode.induct with
  | case1 =>
    intro db h
    simp [biphaseDecode] at h
    subst h
    rfl
  | case2 =>
    intro db h
    simp [biphaseDecode] at h
  | case3 c hc =>
    intro db h
    have hc2 : c = true := by cases c with
      | false => exact absurd rfl hc
      | true => rfl
    subst hc2
    simp [biphaseDecode] at h
    subst h
    rfl
  | case4 c2 rest =>
    intro db h
    simp [biphaseDecode] at h
  | case5 c1 c2 rest hne ih =>
    intro db h
    simp [biphaseDecode, hne] at h
    rcases h with ⟨bs, hbs, hdb⟩
    have := ih bs hbs
    simp [← hdb, List.length_cons]
    omega

/-- The shift-and-or loop packs most-significant-first. -/
theorem shiftPack_foldl_acc :
    ∀ (l : List Bool) (a : Nat),
      l.foldl (fun x b => 2 * x + (if b then 1 else 0)) a =
        a * 2 ^ l.length + specPackMSB l := by
  intro l
  induction l with
  | nil => intro a; simp [specPackMSB]
  | cons b rest ih =>
    intro a
    cases b with
    | false =>
      simp [List.foldl_cons, specPackMSB, ih, List.length_cons]
      ring
    | true =>
      simp [List.foldl_cons, specPackMSB, ih, List.length_cons]
      ring

theorem shiftPack_eq_specPackMSB (l : List Bool) :
    shiftPack l = specPackMSB l := by
  have := shiftPack_foldl_acc l 0
  simpa [shiftPack] using this

/-- The padded chip stream always has even length. -/
theorem padChips_length_even (cs : List Bool) :
    (padChips cs).length % 2 = 0 := by
  unfold padChips
  split
  · rename_i h
    simp [List.length_append]
    omega
  · rename_i h
    omega

/-- C1 (counterexample): a low→high pair (first chip low, second chip high)
is emitted by `biphaseDecode` as data bit 0, not as bit 1 as claimed. -/
theorem rstep_c1_counterexample :
    biphaseDecode [false, true] = some [false] ∧
      biphaseDecode [false, true] ≠ some [true] := by
  constructor
  · decide
  · decide

/-- C1 (amended): for every aligned chip pair whose two chips differ, the
emitted data bit equals the level of the pair's first chip — a high→low
(mark→space) pair yields bit 1 and a low→high (space→mark) pair yields
bit 0. -/
theorem rstep_c1_edge_rule (cs db : List Bool) (i : Nat) (c1 c2 : Bool)
    (hdec : biphaseDecode cs = some db)
    (h1 : cs[2 * i]? = some c1) (h2 : cs[2 * i + 1]? = some c2)
    (hne : c1 ≠ c2) :
    db[i]? = some c1 :=
  biphase_get_fwd cs db hdec i c1 h1

/-- Witness for C1's amended theorem at the concrete pair high→low. -/
theorem rstep_c1_edge_rule_witness :
    biphaseDecode [true, false] = some [true] ∧
      ([true] : List Bool)[0]? = some true :=
  ⟨by decide,
    rstep_c1_edge_rule [true, false] [true] 0 true false (by decide)
      (by decide) (by decide) (by decide)⟩

/-- C2: the fast-clock tick sequence of the documented example frame
(start=1, customer=1101, address=01, frametype=10, battery=1,
payload=00011110) decodes successfully to address 0x1AD (429), value 0x1E
(30) and bit count 8, whatever the prior content of the result object. -/
theorem rstep_c2_example_frame (results : DecodeResults) :
    decodeRstep results exampleRaw38k =
      (true, { decode_type := IRDecodeType.RSTEP, bits := 8, value := 30,
               address := 429 }) := rfl

/-- C3: with at least 10 recovered data bits the field extractor succeeds,
sets `bits` to n − 10, packs data bits 1–9 most-significant-first into
`address` and data bits 10 onward most-significant-first into `value`; the
start bit (data bit 0) is consumed but influences no output field. -/
theorem rstep_c3_field_packing (results : DecodeResults) (db : List Bool)
    (hlen : 10 ≤ db.length) :
    fieldExtract results db =
      (true,
        { decode_type := IRDecodeType.RSTEP,
          bits := db.length - 10,
          value := specPackMSB (db.drop 10),
          address := specPackMSB ((db.drop 1).take 9) }) ∧
      (∀ (b0 b0f : Bool) (rest : List Bool),
        fieldExtract results (b0 :: rest) =
          fieldExtract results (b0f :: rest)) := by
  constructor
  · have hnot : ¬ db.length < 10 := by omega
    simp [fieldExtract, hnot, shiftPack_eq_specPackMSB]
  · intro b0 b0f rest
    simp [fieldExtract]

/-- Witness for C3 on a concrete 10-bit data stream. -/
theorem rstep_c3_field_packing_witness :
    10 ≤ (List.replicate 10 true).length ∧
      fieldExtract emptyResults (List.replicate 10 true) =
        (true, { decode_type := IRDecodeType.RSTEP, bits := 0, value := 0,
                 address := 511 }) :=
  ⟨by decide, by
    rw [(rstep_c3_field_packing emptyResults (List.replicate 10 true)
      (by decide)).1]
    decide⟩

/-- C4: whenever an attempt (either one `decodeRstepInternal` call or the
whole `decodeRstep` driver) returns `false`, the caller supplied result
object is returned completely unchanged. -/
theorem rstep_c4_failure_no_mutation (results : DecodeResults)
    (raw : List Nat) (p : TimingParams) :
    ((decodeRstepInternal results raw p).1 = false →
      (decodeRstepInternal results raw p).2 = results) ∧
    ((decodeRstep results raw).1 = false →
      (decodeRstep results raw).2 = results) := by
  constructor
  · exact decodeRstepInternal_fail_frozen results raw p
  · intro h
    unfold decodeRstep at h ⊢
    cases h1 : decodeRstepInternal results raw params38k with
    | mk ok r =>
      cases ok with
      | true => simp [h1] at h
      | false =>
        have hr : r = results := by
          have h2 := decodeRstepInternal_fail_frozen results raw params38k
            (by rw [h1])
          rw [h1] at h2
          exact h2
        subst hr
        simp only [h1] at h ⊢
        exact decodeRstepInternal_fail_frozen r raw params56k h

/-- Witness for C4 on a capture that fails under both timing tables. -/
theorem rstep_c4_failure_no_mutation_witness :
    (decodeRstep emptyResults [1]).1 = false ∧
      (decodeRstep emptyResults [1]).2 = emptyResults :=
  ⟨by decide,
    (rstep_c4_failure_no_mutation emptyResults [1] params38k).2 (by decide)⟩

/-- C5: the driver succeeds iff the 38 kHz attempt or the 56 kHz attempt
succeeds; a successful fast-clock attempt is returned as is (the slow table
is not consulted), and only a failed fast-clock attempt hands the untouched
capture and result object to the slow-clock attempt. -/
theorem rstep_c5_driver_retry (results : DecodeResults) (raw : List Nat) :
    ((decodeRstep results raw).1 = true ↔
      ((decodeRstepInternal results raw params38k).1 = true ∨
        (decodeRstepInternal results raw params56k).1 = true)) ∧
    ((decodeRstepInternal results raw params38k).1 = true →
      decodeRstep results raw = decodeRstepInternal results raw params38k) ∧
    ((decodeRstepInternal results raw params38k).1 = false →
      decodeRstep results raw = decodeRstepInternal results raw params56k) := by
  cases h1 : decodeRstepInternal results raw params38k with
  | mk ok r =>
    cases ok with
    | true =>
      refine ⟨?_, ?_, ?_⟩
      · simp [decodeRstep, h1]
      · intro _
        simp [decodeRstep, h1]
      · intro hfalse
        simp at hfalse
    | false =>
      have hr : r = results := by
        have h2 := decodeRstepInternal_fail_frozen results raw params38k
          (by rw [h1])
        rw [h1] at h2
        exact h2
      subst hr
      refine ⟨?_, ?_, ?_⟩
      · simp [decodeRstep, h1]
      · intro htrue
        simp at htrue
      · intro _
        simp [decodeRstep, h1]

/-- Witness for C5: the example frame succeeds on the fast clock and the
driver returns exactly that attempt's outcome. -/
theorem rstep_c5_driver_retry_witness :
    (decodeRstepInternal emptyResults exampleRaw38k params38k).1 = true ∧
      decodeRstep emptyResults exampleRaw38k =
        decodeRstepInternal emptyResults exampleRaw38k params38k :=
  ⟨by decide,
    (rstep_c5_driver_retry emptyResults exampleRaw38k).2.1 (by decide)⟩

/-- C6: the classification stage equals its specification — the raw slots are
mapped in order, each duration to one chip (inclusive short window) or two
identical chips (inclusive long window) of its slot's level (marks high,
spaces low) — and any duration outside both windows makes the whole attempt
with that table fail with no partial result. -/
theorem rstep_c6_classifier_spec (p : TimingParams) (raw : List Nat)
    (results : DecodeResults) :
    classifyLoop p 1 raw = specChipStream p raw ∧
      (specChipStream p raw = none →
        decodeRstepInternal results raw p = (false, results)) := by
  constructor
  · exact classifyLoop_eq_spec p raw
  · intro hnone
    unfold decodeRstepInternal
    rw [classifyLoop_eq_spec p raw, hnone]

/-- Witness for C6 on an out-of-window duration. -/
theorem rstep_c6_classifier_spec_witness :
    specChipStream params38k [1] = none ∧
      decodeRstepInternal emptyResults [1] params38k =
        (false, emptyResults) :=
  ⟨by decide,
    (rstep_c6_classifier_spec params38k [1] emptyResults).2 (by decide)⟩

/-- C7: a classified capture whose padded chip stream contains an aligned
pair of two equal chips makes the attempt with that timing table fail and
leaves the result object unchanged. -/
theorem rstep_c7_ambiguous_pair (p : TimingParams) (raw : List Nat)
    (results : DecodeResults) (cs : List Bool) (i : Nat) (c : Bool)
    (hclass : classifyLoop p 1 raw = some cs)
    (h1 : (padChips cs)[2 * i]? = some c)
    (h2 : (padChips cs)[2 * i + 1]? = some c) :
    decodeRstepInternal results raw p = (false, results) := by
  unfold decodeRstepInternal
  simp only [hclass]
  rw [biphase_eqpair_none (padChips cs) i c h1 h2]

/-- Witness for C7: a short mark followed by a long space yields the padded
chips high,low,low,low whose second pair is equal, so the attempt fails. -/
theorem rstep_c7_ambiguous_pair_witness :
    classifyLoop params38k 1 [6, 13] = some [true, false, false] ∧
      decodeRstepInternal emptyResults [6, 13] params38k =
        (false, emptyResults) :=
  ⟨by decide,
    rstep_c7_ambiguous_pair params38k [6, 13] emptyResults
      [true, false, false] 1 false (by decide) (by decide) (by decide)⟩

/-- C8: an attempt whose biphase stage recovers exactly 10 data bits succeeds
with `bits` (the payload bit count) 0 and `value` 0, while an attempt
recovering 9 or fewer data bits fails. -/
theorem rstep_c8_minimum_frame (p : TimingParams) (raw : List Nat)
    (results : DecodeResults) (cs db : List Bool)
    (hclass : classifyLoop p 1 raw = some cs)
    (hbi : biphaseDecode (padChips cs) = some db) :
    (db.length = 10 →
      (decodeRstepInternal results raw p).1 = true ∧
        (decodeRstepInternal results raw p).2.bits = 0 ∧
        (decodeRstepInternal results raw p).2.value = 0) ∧
    (db.length ≤ 9 →
      decodeRstepInternal results raw p = (false, results)) := by
  constructor
  · intro hlen
    have hdrop : db.drop 10 = [] := by
      rw [← hlen]
      exact List.drop_length db
    have hnot : ¬ db.length < 10 := by omega
    unfold decodeRstepInternal
    simp only [hclass, hbi]
    simp [fieldExtract, hnot, hlen, hdrop, shiftPack]
  · intro hlen
    have hlt : db.length < 10 := by omega
    unfold decodeRstepInternal
    simp only [hclass, hbi]
    simp [fieldExtract, hlt]

/-- Witness for C8: twenty short pulses at the fast clock recover exactly 10
data bits and decode successfully with zero payload bits and value 0. -/
theorem rstep_c8_minimum_frame_witness :
    (decodeRstepInternal emptyResults (List.replicate 20 6) params38k).1 =
        true ∧
      (decodeRstepInternal emptyResults (List.replicate 20 6)
        params38k).2.bits = 0 ∧
      (decodeRstepInternal emptyResults (List.replicate 20 6)
        params38k).2.value = 0 :=
  (rstep_c8_minimum_frame params38k (List.replicate 20 6) emptyResults
    ((List.replicate 10 [true, false]).flatten) (List.replicate 10 true)
    (by decide) (by decide)).1 (by decide)

/-- C9: after classification the stream consumed by the biphase walk has even
length — an odd chip count gets exactly one synthetic low chip appended, an
even one is untouched — and a successful walk recovers exactly half as many
data bits as padded chips. -/
theorem rstep_c9_even_padding (cs db : List Bool) :
    (padChips cs).length % 2 = 0 ∧
      (cs.length % 2 = 1 → padChips cs = cs ++ [false]) ∧
      (cs.length % 2 = 0 → padChips cs = cs) ∧
      (biphaseDecode (padChips cs) = some db →
        2 * db.length = (padChips cs).length) := by
  refine ⟨padChips_length_even cs, ?_, ?_, ?_⟩
  · intro h
    simp [padChips, h]
  · intro h
    have hne : ¬ cs.length % 2 = 1 := by omega
    simp [padChips, hne]
  · intro hbi
    have hlen := biphase_length (padChips cs) db hbi
    have heven := padChips_length_even cs
    omega

/-- Witness for C9 on a single-chip stream. -/
theorem rstep_c9_even_padding_witness :
    padChips [true] = [true] ++ [false] ∧
      2 * ([true] : List Bool).length = (padChips [true]).length :=
  ⟨(rstep_c9_even_padding [true] [true]).2.1 (by decide),
    (rstep_c9_even_padding [true] [true]).2.2.2 (by decide)⟩

/-- C10 (counterexample): a capture of 65 in-window short pulses classifies
successfully and expands to 65 chips, so the running chip count — the shift
amount into the 64-bit accumulator — reaches 64 instead of staying below
it. -/
theorem rstep_c10_counterexample :
    (classifyLoop params38k 1 (List.replicate 65 6)).map List.length =
        some 65 ∧ ¬ (65 ≤ 64) := by
  constructor
  · decide
  · decide

/-- C10 (amended): each raw pulse contributes at most two chips, so the chip
count (and with it every shift amount, which stays strictly below the final
count) is bounded by twice the number of raw slots; in particular any capture
of at most 32 pulses keeps the chip count at 64 or below.  Longer captures —
65 in-window pulses suffice — exceed the 64-bit accumulator. -/
theorem rstep_c10_chip_bound (p : TimingParams) (raw : List Nat)
    (cs : List Bool) (hclass : classifyLoop p 1 raw = some cs) :
    cs.length ≤ 2 * raw.length ∧ (raw.length ≤ 32 → cs.length ≤ 64) := by
  have h := classifyLoop_length_le p raw 1 cs hclass
  exact ⟨h, fun h32 => by omega⟩

/-- Witness for C10's amended theorem on a two-pulse capture. -/
theorem rstep_c10_chip_bound_witness :
    classifyLoop params38k 1 [6, 6] = some [true, false] ∧
      [true, false].length ≤ 2 * ([6, 6] : List Nat).length ∧
      [true, false].length ≤ 64 :=
  ⟨by decide,
    (rstep_c10_chip_bound params38k [6, 6] [true, false] (by decide)).1,
    (rstep_c10_chip_bound params38k [6, 6] [true, false] (by decide)).2
      (by decide)⟩
